import Mathlib

/-!
Shallow embedding of `src/bus/mod.rs` of the busd message-bus broker: address
resolution (`Bus::for_address`), the unix/tcp listener factories
(`Bus::unix_addr`, `Bus::unix_stream`, `Bus::tcp_stream`), the accept loop
(`Bus::run`, `Bus::accept_next`, `Bus::accept`), peer-id minting
(`Bus::next_id`) and shutdown cleanup (`Bus::cleanup`).

External effects — the `fastrand` draw, `zbus::Guid::generate`, the OS bind
outcomes and the fallible self-connection bootstrap — are supplied explicitly
through an `Env` record; network and filesystem side effects are recorded as
explicit action lists so theorems can state which effects occur.  Address
*parsing* belongs to the `zbus` dependency, so `for_address` takes the
already-parsed specification.
-/

namespace Busd

/-- Session GUID (`zbus::OwnedGuid`), modelled by its string form. -/
abbrev Guid := String

/-- The `zbus` unix-socket addressing sub-modes (`path=`, `abstract=`, `dir=`,
`tmpdir=`); `other` stands for any further sub-mode hit by the wildcard arm of
`Bus::unix_addr`. -/
inductive UnixSocket where
  | file (path : String)
  | abstract (name : String)
  | dir (path : String)
  | tmpDir (path : String)
  | other
  deriving DecidableEq, Repr

/-- The `zbus` TCP transport parameters used by the source. -/
structure Tcp where
  host : String
  port : Nat
  nonce_file : Option String
  deriving DecidableEq, Repr

/-- The `zbus` transport of an address; `other` stands for every transport kind
hit by the wildcard arm of `Bus::for_address`. -/
inductive Transport where
  | unix (u : UnixSocket)
  | tcp (t : Tcp)
  | other (desc : String)
  deriving DecidableEq, Repr

/-- A parsed `zbus::Address`: transport plus optional `guid=` parameter. -/
structure Address where
  transport : Transport
  guid : Option Guid
  deriving DecidableEq, Repr

/-- The `zbus` `Address::set_guid` (modelled as total: it attaches the GUID;
its failure mode is never exercised by the source, which only sets a GUID on
addresses that do not have one). -/
def Address.set_guid (a : Address) (g : Guid) : Address :=
  { a with guid := some g }

/-- The std `os::unix::net::SocketAddr`, restricted to the two constructors the
source can produce (`from_pathname`, `from_abstract_name`; both modelled as
succeeding, their OS failure modes being irrelevant to the claims). -/
inductive SocketAddr where
  | pathname (path : String)
  | abstractName (name : String)
  deriving DecidableEq, Repr

/-- The std `SocketAddr::as_pathname`: `some` only for pathname addresses. -/
def SocketAddr.as_pathname : SocketAddr → Option String
  | .pathname p => some p
  | .abstractName _ => none

/-- The two `zbus` authentication mechanisms the source selects from. -/
inductive AuthMechanism where
  | external
  | anonymous
  deriving DecidableEq, Repr

/-- The `Listener` enum of the source: one bound OS listening resource. -/
inductive Listener where
  | unix (addr : SocketAddr)
  | tcp (host : String) (port : Nat)
  deriving DecidableEq, Repr

/-- The `Inner` struct (cheaply cloneable fields of `Bus`); `peers` is an
opaque handle to the external registry (`Peers::new()` modelled as token `0`)
and `self_conn` the retained service-end connection (opaque). -/
structure Inner where
  address : Address
  peers : Nat
  guid : Guid
  next_id : Nat
  auth_mechanism : AuthMechanism
  self_conn : Unit
  deriving DecidableEq, Repr

/-- The `Bus` struct. -/
structure Bus where
  inner : Inner
  listener : Listener
  deriving DecidableEq, Repr

/-- Distinguishes an error returned to the caller (`bail!` / `?`) from a panic
(`expect`). -/
inductive Failure where
  | err (msg : String)
  | panicked (msg : String)
  deriving DecidableEq, Repr

/-- Network side effects performed while creating a listener. -/
inductive NetAction where
  | bindUnix (addr : SocketAddr)
  | bindTcp (host : String) (port : Nat)
  deriving DecidableEq, Repr

/-- Filesystem side effects performed by `cleanup`. -/
inductive FsAction where
  | removeFile (path : String)
  deriving DecidableEq, Repr

instance {ε α : Type} [DecidableEq ε] [DecidableEq α] : DecidableEq (Except ε α) := fun x y =>
  match x, y with
  | .ok a, .ok b => decidable_of_iff (a = b) (by simp)
  | .error a, .error b => decidable_of_iff (a = b) (by simp)
  | .ok _, .error _ => isFalse (fun h => by cases h)
  | .error _, .ok _ => isFalse (fun h => by cases h)

/-- Outcomes of the external effects consumed by `Bus::for_address`: the GUID
`zbus::Guid::generate` would return, the number `fastrand::u32` would draw, the
OS outcomes of the unix/tcp binds, and the outcome of the self-connection
bootstrap steps (collapsed to one fallible step; all its sub-steps are fatal to
bootstrap alike). -/
structure Env where
  freshGuid : Guid
  rand : Nat
  unixBind : Except String Unit
  tcpBind : Except String Unit
  bootstrap : Except String Unit
  deriving DecidableEq, Repr

/-- Rust `Bus::unix_addr` on Linux (the `Abstract` arm is compiled in there).
The `fastrand::u32(1_000_000..u32::MAX)` draw is supplied as `r`; `dir.join`
is modelled as concatenation with a `/` separator (the directory is taken
without a trailing separator). -/
def Bus.unix_addr (u : UnixSocket) (r : Nat) : Except String SocketAddr :=
  match u with
  | .abstract name => .ok (.abstractName name)
  | .file path => .ok (.pathname path)
  | .dir d => .ok (.pathname (d ++ "/dbus-" ++ Nat.repr r))
  | .tmpDir d => .ok (.pathname (d ++ "/dbus-" ++ Nat.repr r))
  | .other => .error "Unsupported address."

/-- Rust `Bus::unix_stream`: bind a std listener to `addr` (outcome supplied),
recording that the bind was attempted. -/
def Bus.unix_stream (addr : SocketAddr) (bind : Except String Unit) :
    Except String Listener × List NetAction :=
  match bind with
  | .ok _ => (.ok (.unix addr), [.bindUnix addr])
  | .error e => (.error e, [.bindUnix addr])

/-- Rust `Bus::tcp_stream`: reject a `nonce-tcp` variant before binding,
otherwise bind to host/port (outcome supplied). -/
def Bus.tcp_stream (t : Tcp) (bind : Except String Unit) :
    Except String Listener × List NetAction :=
  if t.nonce_file.isSome then
    (.error "`nonce-tcp` transport is not supported (yet).", [])
  else
    match bind with
    | .ok _ => (.ok (.tcp t.host t.port), [.bindTcp t.host t.port])
    | .error e => (.error e, [.bindTcp t.host t.port])

/-- Rust `Bus::for_address`, given the already-parsed address specification.
Mirrors the source order: adopt or generate the GUID, then resolve the
transport (for unix: `unix_addr`, the `as_pathname().expect(...)` rebuild of
the canonical address, then the bind), then the self-connection bootstrap,
ending in the `Bus` value with `next_id = 0` and `Peers::new()`. -/
def Bus.for_address (spec : Address) (env : Env) : Except Failure Bus × List NetAction :=
  let ga : Guid × Address :=
    match spec.guid with
    | some g => (g, spec)
    | none => (env.freshGuid, spec.set_guid env.freshGuid)
  let guid := ga.1
  let address := ga.2
  match address.transport with
  | .unix u =>
    match Bus.unix_addr u env.rand with
    | .error e => (.error (.err e), [])
    | .ok addr =>
      match addr.as_pathname with
      | none =>
        (.error (.panicked "Address created for UNIX socket should always have a path."), [])
      | some path =>
        let address := (Address.mk (.unix (.file path)) none).set_guid guid
        match Bus.unix_stream addr env.unixBind with
        | (.error e, acts) => (.error (.err e), acts)
        | (.ok listener, acts) =>
          match env.bootstrap with
          | .error e => (.error (.err e), acts)
          | .ok _ => (.ok ⟨⟨address, 0, guid, 0, .external, ()⟩, listener⟩, acts)
  | .tcp t =>
    match Bus.tcp_stream t env.tcpBind with
    | (.error e, acts) => (.error (.err e), acts)
    | (.ok listener, acts) =>
      match env.bootstrap with
      | .error e => (.error (.err e), acts)
      | .ok _ => (.ok ⟨⟨address, 0, guid, 0, .anonymous, ()⟩, listener⟩, acts)
  | .other _ => (.error (.err "Unsupported address."), [])

/-- Rust `Bus::address`. -/
def Bus.address (bus : Bus) : Address := bus.inner.address

/-- Rust `Bus::guid`. -/
def Bus.guid (bus : Bus) : Guid := bus.inner.guid

/-- Rust `Bus::auth_mechanism`. -/
def Bus.auth_mechanism (bus : Bus) : AuthMechanism := bus.inner.auth_mechanism

/-- Rust `Bus::peers` (the registry handle). -/
def Bus.peers (bus : Bus) : Nat := bus.inner.peers

/-- Width of `usize` on the 64-bit targets busd runs on. -/
def USIZE : Nat := 2 ^ 64

/-- Rust `Bus::next_id`: `self.inner.next_id += 1; self.inner.next_id`, with
`usize` (release-profile, wrapping) semantics made explicit. -/
def Bus.next_id (bus : Bus) : Bus × Nat :=
  let n := (bus.inner.next_id + 1) % USIZE
  ({ bus with inner := { bus.inner with next_id := n } }, n)

/-- One accept-loop iteration's interaction with the outside world: either the
listener yields a connection (`socket` is the raw stream, `admission` the
outcome its spawned `Peers::add` call will have), or `accept` itself fails with
an I/O error. -/
inductive AcceptEvent where
  | conn (socket : Nat) (admission : Except String Unit)
  | ioErr (e : String)
  deriving DecidableEq, Repr

/-- Rust `Bus::accept`: pull the next stream off the listener or fail.  (Both
listener arms of the source behave identically at this level.) -/
def Bus.accept (_bus : Bus) (ev : AcceptEvent) : Except String Nat :=
  match ev with
  | .conn socket _ => .ok socket
  | .ioErr e => .error e

/-- Arguments of the spawned `Peers::add(&guid, id, socket, auth_mechanism)`
call: the admission handoff. -/
structure Handoff where
  guid : Guid
  id : Nat
  socket : Nat
  mech : AuthMechanism
  deriving DecidableEq, Repr

/-- Warn-log lines emitted by the spawned admission task for one event. -/
def AcceptEvent.warnOf : AcceptEvent → List String
  | .conn _ (.error e) => ["Failed to establish connection: " ++ e]
  | _ => []

/-- Result of one `Bus::accept_next` iteration: the updated bus, the spawned
admission handoffs, the warn-log lines, and the early-returned error, if any. -/
structure StepOut where
  bus : Bus
  handoffs : List Handoff
  warns : List String
  error : Option String
  deriving DecidableEq, Repr

/-- Rust `Bus::accept_next`: `accept` (an error propagates immediately, before
any mutation), then mint the id and spawn the admission task, whose failure is
only warn-logged. -/
def Bus.accept_next (bus : Bus) (ev : AcceptEvent) : StepOut :=
  match bus.accept ev with
  | .error e => ⟨bus, [], [], some e⟩
  | .ok socket =>
    let bn := bus.next_id
    ⟨bn.1, [⟨bn.1.inner.guid, bn.2, socket, bn.1.inner.auth_mechanism⟩], ev.warnOf, none⟩

/-- Final observation of a `Bus::run` execution over a finite event trace. -/
structure RunResult where
  bus : Bus
  handoffs : List Handoff
  warns : List String
  error : Option String
  deriving DecidableEq, Repr

/-- Rust `Bus::run` (`loop { self.accept_next().await? }`) driven by a finite
event trace; `error = none` means the trace ran out with the loop still
accepting. -/
def Bus.run (bus : Bus) : List AcceptEvent → RunResult
  | [] => ⟨bus, [], [], none⟩
  | ev :: evs =>
    let st := bus.accept_next ev
    match st.error with
    | some e => ⟨st.bus, st.handoffs, st.warns, some e⟩
    | none =>
      let r := st.bus.run evs
      ⟨r.bus, st.handoffs ++ r.handoffs, st.warns ++ r.warns, r.error⟩

/-- Rust `Bus::cleanup`: remove the socket file for a unix path transport,
no-op otherwise; the outcome of `tokio::fs::remove_file` is supplied. -/
def Bus.cleanup (bus : Bus) (remove_file : String → Except String Unit) :
    Except String Unit × List FsAction :=
  match bus.inner.address.transport with
  | .unix u =>
    match u with
    | .file path => (remove_file path, [.removeFile path])
    | _ => (.ok (), [])
  | _ => (.ok (), [])

/-- Whether an event is a successfully accepted connection. -/
def AcceptEvent.isConn : AcceptEvent → Bool
  | .conn _ _ => true
  | .ioErr _ => false

/-- The concrete file path of a unix path transport, if any. -/
def Transport.unixFilePath : Transport → Option String
  | .unix (.file p) => some p
  | _ => none

/-! Concrete sample values used by the witnesses. -/

def sampleEnv : Env := ⟨"guid123", 1234567, .ok (), .ok (), .ok ()⟩

def sampleTcp : Tcp := ⟨"127.0.0.1", 4242, none⟩

def sampleSpecTcp : Address := ⟨.tcp sampleTcp, some "abc"⟩

def sampleBusT : Bus :=
  ⟨⟨⟨.tcp sampleTcp, some "abc"⟩, 0, "abc", 0, .anonymous, ()⟩, .tcp "127.0.0.1" 4242⟩

def sampleBusDir : Bus :=
  ⟨⟨⟨.unix (.file "/tmp/testbus/dbus-1234567"), some "guid123"⟩, 0, "guid123", 0, .external, ()⟩,
    .unix (.pathname "/tmp/testbus/dbus-1234567")⟩

def busNearMax : Bus :=
  ⟨⟨⟨.tcp sampleTcp, some "g"⟩, 0, "g", USIZE - 1, .anonymous, ()⟩, .tcp "127.0.0.1" 4242⟩

/-! Inversion of a successful `for_address`. -/

/-- Every `Bus` produced by `for_address` starts its id counter at `0`, carries the
adopted or generated GUID both as session GUID and inside the resolved address, and
has the transport-determined authentication mechanism. -/
theorem for_address_ok_inv (spec : Address) (env : Env) (b : Bus) (acts : List NetAction)
    (h : Bus.for_address spec env = (.ok b, acts)) :
    b.inner.next_id = 0 ∧ b.inner.peers = 0 ∧
    b.inner.guid = (match spec.guid with | some g => g | none => env.freshGuid) ∧
    b.inner.address.guid = some b.inner.guid ∧
    (match spec.transport with
      | .unix _ => b.inner.auth_mechanism = .external
      | .tcp _ => b.inner.auth_mechanism = .anonymous
      | .other _ => False) := by
  obtain ⟨tr, gopt⟩ := spec
  obtain ⟨fg, r, ub, tb, bs⟩ := env
  cases tr with
  | unix u =>
    cases u <;> cases gopt <;> cases ub <;> cases bs <;>
      simp_all [Bus.for_address, Bus.unix_addr, SocketAddr.as_pathname, Bus.unix_stream,
        Address.set_guid, Prod.ext_iff] <;>
      obtain ⟨hb, -⟩ := h <;> subst hb <;> simp
  | tcp t =>
    obtain ⟨host, port, nf⟩ := t
    cases nf <;> cases gopt <;> cases tb <;> cases bs <;>
      simp_all [Bus.for_address, Bus.tcp_stream, Address.set_guid, Prod.ext_iff] <;>
      obtain ⟨hb, -⟩ := h <;> subst hb <;> simp
  | other d =>
    cases gopt <;> simp_all [Bus.for_address, Address.set_guid, Prod.ext_iff]

/-- Claim C6: cleanup removes the socket file exactly when the resolved transport
is a unix domain socket bound to a concrete file path, surfacing the OS removal
outcome unchanged to the caller; for all other transports it performs no
filesystem action and returns success. -/
theorem c6_cleanup_removes_socket_file (bus : Bus) (rm : String → Except String Unit) :
    (∀ p, bus.inner.address.transport.unixFilePath = some p →
      Bus.cleanup bus rm = (rm p, [.removeFile p])) ∧
    (bus.inner.address.transport.unixFilePath = none →
      Bus.cleanup bus rm = (.ok (), [])) := by
  constructor
  · intro p hp
    match htr : bus.inner.address.transport with
    | .unix (.file q) =>
      rw [htr] at hp
      simp only [Transport.unixFilePath, Option.some.injEq] at hp
      subst hp
      simp [Bus.cleanup, htr]
    | .unix (.abstract _) | .unix (.dir _) | .unix (.tmpDir _) | .unix .other
    | .tcp _ | .other _ => rw [htr] at hp; simp [Transport.unixFilePath] at hp
  · intro hp
    match htr : bus.inner.address.transport with
    | .unix (.file q) => rw [htr] at hp; simp [Transport.unixFilePath] at hp
    | .unix (.abstract _) | .unix (.dir _) | .unix (.tmpDir _) | .unix .other
    | .tcp _ | .other _ => simp [Bus.cleanup, htr]

/-- Witness for C6 at a unix-file bus (removal error surfaced) and a TCP bus
(trivial success, no filesystem action). -/
theorem c6_witness :
    (⟨⟨⟨.unix (.file "/tmp/sock"), some "g"⟩, 0, "g", 0, .external, ()⟩,
        .unix (.pathname "/tmp/sock")⟩ : Bus).inner.address.transport.unixFilePath =
        some "/tmp/sock" ∧
    Bus.cleanup ⟨⟨⟨.unix (.file "/tmp/sock"), some "g"⟩, 0, "g", 0, .external, ()⟩,
        .unix (.pathname "/tmp/sock")⟩ (fun _ => .error "No such file or directory") =
      (.error "No such file or directory", [.removeFile "/tmp/sock"]) ∧
    Bus.cleanup sampleBusT (fun _ => .error "No such file or directory") = (.ok (), []) :=
  ⟨by decide,
    (c6_cleanup_removes_socket_file _ _).1 "/tmp/sock" (by decide),
    (c6_cleanup_removes_socket_file sampleBusT _).2 (by decide)⟩

/-- Claim C7: a TCP specification with a nonce-file parameter fails before any
socket is bound and `for_address` returns that error; without a nonce-file the
listener is bound to the given host and port. -/
theorem c7_nonce_tcp_rejected (t : Tcp) (env : Env) :
    (t.nonce_file.isSome = true →
      Bus.tcp_stream t env.tcpBind =
        (.error "`nonce-tcp` transport is not supported (yet).", []) ∧
      ∀ gopt, (Bus.for_address ⟨.tcp t, gopt⟩ env).1 =
        .error (.err "`nonce-tcp` transport is not supported (yet).")) ∧
    (t.nonce_file = none →
      (Bus.tcp_stream t env.tcpBind).2 = [.bindTcp t.host t.port] ∧
      (env.tcpBind = .ok () → Bus.tcp_stream t env.tcpBind =
        (.ok (.tcp t.host t.port), [.bindTcp t.host t.port]))) := by
  constructor
  · intro hnf
    have hstream : Bus.tcp_stream t env.tcpBind =
        (.error "`nonce-tcp` transport is not supported (yet).", []) := by
      simp [Bus.tcp_stream, hnf]
    refine ⟨hstream, fun gopt => ?_⟩
    cases gopt <;> simp [Bus.for_address, Address.set_guid, hstream]
  · intro hnf
    constructor
    · cases hb : env.tcpBind <;> simp [Bus.tcp_stream, hnf, hb]
    · intro hb
      simp [Bus.tcp_stream, hnf, hb]

/-- Witness for C7 at a nonce-file TCP spec and at the plain sample TCP spec. -/
theorem c7_witness :
    ((⟨"127.0.0.1", 4242, some "/tmp/nonce"⟩ : Tcp).nonce_file.isSome = true ∧
      (Bus.for_address ⟨.tcp ⟨"127.0.0.1", 4242, some "/tmp/nonce"⟩, some "abc"⟩ sampleEnv).1 =
        .error (.err "`nonce-tcp` transport is not supported (yet).")) ∧
    (sampleTcp.nonce_file = none ∧
      Bus.tcp_stream sampleTcp sampleEnv.tcpBind =
        (.ok (.tcp "127.0.0.1" 4242), [.bindTcp "127.0.0.1" 4242])) :=
  ⟨⟨by decide,
      ((c7_nonce_tcp_rejected ⟨"127.0.0.1", 4242, some "/tmp/nonce"⟩ sampleEnv).1
        (by decide)).2 (some "abc")⟩,
    ⟨by decide,
      ((c7_nonce_tcp_rejected sampleTcp sampleEnv).2 (by decide)).2 (by decide)⟩⟩

/-- Claim C10: minting below `usize::MAX` yields the strictly larger successor,
but the mint at counter value `usize::MAX` wraps to `0` and is not larger. -/
theorem c10_next_id_overflow :
    (∀ bus : Bus, bus.inner.next_id + 1 < USIZE →
      bus.next_id.2 = bus.inner.next_id + 1 ∧ bus.inner.next_id < bus.next_id.2) ∧
    (∀ bus : Bus, bus.inner.next_id = USIZE - 1 →
      bus.next_id.2 = 0 ∧ ¬ bus.inner.next_id < bus.next_id.2) := by
  have hU : USIZE = 18446744073709551616 := by norm_num [USIZE]
  constructor
  · intro bus h
    have h2 : (bus.inner.next_id + 1) % USIZE = bus.inner.next_id + 1 := Nat.mod_eq_of_lt h
    exact ⟨h2, by simp [Bus.next_id, h2]⟩
  · intro bus h
    have h2 : (bus.inner.next_id + 1) % USIZE = 0 := by rw [h, hU]
    refine ⟨h2, ?_⟩
    simp only [Bus.next_id, h2, h, hU]
    omega

/-- Witness for C10 at a fresh bus and at a bus whose counter sits at `usize::MAX`. -/
theorem c10_witness :
    (sampleBusT.inner.next_id + 1 < USIZE ∧ sampleBusT.next_id.2 = 1) ∧
    (busNearMax.inner.next_id = USIZE - 1 ∧ busNearMax.next_id.2 = 0) :=
  ⟨⟨by decide, ((c10_next_id_overflow.1 sampleBusT (by decide)).1 : _)⟩,
    ⟨rfl, (c10_next_id_overflow.2 busNearMax rfl).1⟩⟩

/-! Behaviour of the accept loop over a finite event trace. -/

/-- The loop's early return is `none` exactly when every event of the trace is a
successfully accepted connection. -/
theorem run_error_iff (bus : Bus) (evs : List AcceptEvent) :
    (Bus.run bus evs).error = none ↔ ∀ ev ∈ evs, ev.isConn = true := by
  induction evs generalizing bus with
  | nil => simp [Bus.run]
  | cons ev evs ih =>
    cases ev with
    | conn s adm =>
      simp [Bus.run, Bus.accept_next, Bus.accept, AcceptEvent.isConn, ih]
    | ioErr e =>
      simp [Bus.run, Bus.accept_next, Bus.accept, AcceptEvent.isConn]

/-- A returned error is the error of some listener-level accept failure of the trace. -/
theorem run_error_mem (bus : Bus) (evs : List AcceptEvent) (e : String)
    (h : (Bus.run bus evs).error = some e) : AcceptEvent.ioErr e ∈ evs := by
  induction evs generalizing bus with
  | nil => simp [Bus.run] at h
  | cons ev evs ih =>
    cases ev with
    | conn s adm =>
      simp only [Bus.run, Bus.accept_next, Bus.accept] at h
      exact List.mem_cons_of_mem _ (ih _ h)
    | ioErr e2 =>
      simp only [Bus.run, Bus.accept_next, Bus.accept, Option.some.injEq] at h
      subst h
      exact List.mem_cons_self _ _

/-- Over an all-connection trace, every connection is handed off (one admission
per event) and the warn log is exactly the concatenation of the per-event
admission-failure warnings. -/
theorem run_conn_stats (bus : Bus) (evs : List AcceptEvent)
    (h : ∀ ev ∈ evs, ev.isConn = true) :
    (Bus.run bus evs).handoffs.length = evs.length ∧
    (Bus.run bus evs).warns = (evs.map AcceptEvent.warnOf).flatten := by
  induction evs generalizing bus with
  | nil => simp [Bus.run]
  | cons ev evs ih =>
    cases ev with
    | ioErr e => simp [AcceptEvent.isConn] at h
    | conn s adm =>
      simp only [List.forall_mem_cons] at h
      have := ih (bus.next_id.1) h.2
      simp [Bus.run, Bus.accept_next, Bus.accept, this.1, this.2]

/-- The accept loop never modifies the address, GUID, authentication mechanism,
registry handle or listener of the bus state. -/
theorem run_fields_const (bus : Bus) (evs : List AcceptEvent) :
    (Bus.run bus evs).bus.inner.address = bus.inner.address ∧
    (Bus.run bus evs).bus.inner.guid = bus.inner.guid ∧
    (Bus.run bus evs).bus.inner.auth_mechanism = bus.inner.auth_mechanism ∧
    (Bus.run bus evs).bus.inner.peers = bus.inner.peers ∧
    (Bus.run bus evs).bus.listener = bus.listener := by
  induction evs generalizing bus with
  | nil => simp [Bus.run]
  | cons ev evs ih =>
    cases ev with
    | ioErr e => simp [Bus.run, Bus.accept_next, Bus.accept]
    | conn s adm =>
      have := ih bus.next_id.1
      simp only [Bus.run, Bus.accept_next, Bus.accept] at this ⊢
      simpa [Bus.next_id] using this

/-- Claim C9: a failed accept leaves the bus exactly unchanged (no id minted, no
admission spawned), and no accept-loop step ever modifies the address, GUID,
authentication mechanism, registry handle or listener. -/
theorem c9_accept_failure_preserves_state (bus : Bus) (e : String) (ev : AcceptEvent)
    (evs : List AcceptEvent) :
    Bus.accept bus (.ioErr e) = .error e ∧
    bus.accept_next (.ioErr e) = ⟨bus, [], [], some e⟩ ∧
    (bus.accept_next ev).bus.inner.address = bus.inner.address ∧
    (bus.accept_next ev).bus.inner.guid = bus.inner.guid ∧
    (bus.accept_next ev).bus.inner.auth_mechanism = bus.inner.auth_mechanism ∧
    (bus.accept_next ev).bus.inner.peers = bus.inner.peers ∧
    (bus.accept_next ev).bus.listener = bus.listener ∧
    (Bus.run bus evs).bus.inner.address = bus.inner.address ∧
    (Bus.run bus evs).bus.inner.guid = bus.inner.guid ∧
    (Bus.run bus evs).bus.inner.auth_mechanism = bus.inner.auth_mechanism ∧
    (Bus.run bus evs).bus.inner.peers = bus.inner.peers ∧
    (Bus.run bus evs).bus.listener = bus.listener := by
  obtain ⟨h1, h2, h3, h4, h5⟩ := run_fields_const bus evs
  refine ⟨rfl, rfl, ?_, ?_, ?_, ?_, ?_, h1, h2, h3, h4, h5⟩ <;>
    cases ev <;> simp [Bus.accept_next, Bus.accept, Bus.next_id]

/-- Claim C1: an admission failure is warn-logged and only that connection is
dropped; `run` returns an error exactly when (and with the error of) a
listener-level accept failure, and over failure-free-listener traces every
accepted connection is processed and the loop keeps going. -/
theorem c1_admission_failures_isolated (bus : Bus) (evs : List AcceptEvent) :
    ((Bus.run bus evs).error = none ↔ ∀ ev ∈ evs, ev.isConn = true) ∧
    (∀ e, (Bus.run bus evs).error = some e → AcceptEvent.ioErr e ∈ evs) ∧
    ((∀ ev ∈ evs, ev.isConn = true) →
      (Bus.run bus evs).handoffs.length = evs.length ∧
      (Bus.run bus evs).warns = (evs.map AcceptEvent.warnOf).flatten) :=
  ⟨run_error_iff bus evs, fun e he => run_error_mem bus evs e he,
    fun h => run_conn_stats bus evs h⟩

/-- Sample trace: three accepted connections, the middle one failing admission. -/
def evsW : List AcceptEvent := [.conn 7 (.ok ()), .conn 8 (.error "timeout"), .conn 9 (.ok ())]

/-- Witness for C1: on `evsW` the loop returns no error, hands off all three
connections, and logs exactly the one admission failure. -/
theorem c1_witness :
    (∀ ev ∈ evsW, ev.isConn = true) ∧
    (Bus.run sampleBusT evsW).error = none ∧
    (Bus.run sampleBusT evsW).handoffs.length = evsW.length ∧
    (Bus.run sampleBusT evsW).warns = (evsW.map AcceptEvent.warnOf).flatten :=
  ⟨by decide,
    (c1_admission_failures_isolated sampleBusT evsW).1.mpr (by decide),
    ((c1_admission_failures_isolated sampleBusT evsW).2.2 (by decide)).1,
    ((c1_admission_failures_isolated sampleBusT evsW).2.2 (by decide)).2⟩

/-- Over an all-connection trace that stays below the `usize` wrap, the minted
ids are the consecutive integers starting right above the current counter. -/
theorem run_handoff_ids (bus : Bus) (evs : List AcceptEvent)
    (hconn : ∀ ev ∈ evs, ev.isConn = true)
    (hlt : bus.inner.next_id + evs.length < USIZE) :
    (Bus.run bus evs).handoffs.map Handoff.id =
      List.range' (bus.inner.next_id + 1) evs.length := by
  induction evs generalizing bus with
  | nil => simp [Bus.run]
  | cons ev evs ih =>
    cases ev with
    | ioErr e => simp [AcceptEvent.isConn] at hconn
    | conn s adm =>
      simp only [List.forall_mem_cons] at hconn
      simp only [List.length_cons] at hlt
      have h1 : bus.inner.next_id + 1 < USIZE := by omega
      have hmod : (bus.inner.next_id + 1) % USIZE = bus.inner.next_id + 1 :=
        Nat.mod_eq_of_lt h1
      have hrec := ih bus.next_id.1 hconn.2 (by simp [Bus.next_id, hmod]; omega)
      simp only [Bus.next_id, hmod] at hrec
      simp [Bus.run, Bus.accept_next, Bus.accept, Bus.next_id, hmod, hrec,
        List.range'_succ]

/-- Claim C2: from any bus produced by `for_address`, a run of `N` accepted
connections (below the `usize` wrap, cf. C10) hands the registry exactly the
PeerIds `1, 2, ..., N` in acceptance order. -/
theorem c2_peer_ids_sequential (spec : Address) (env : Env) (b : Bus)
    (acts : List NetAction) (evs : List AcceptEvent)
    (hok : Bus.for_address spec env = (.ok b, acts))
    (hconn : ∀ ev ∈ evs, ev.isConn = true)
    (hN : evs.length < USIZE) :
    (Bus.run b evs).handoffs.map Handoff.id = List.range' 1 evs.length := by
  have h0 := (for_address_ok_inv spec env b acts hok).1
  have hids := run_handoff_ids b evs hconn (by omega)
  rw [h0] at hids
  exact hids

/-- Witness for C2: the sample TCP bus accepting `evsW` mints ids `[1, 2, 3]`. -/
theorem c2_witness :
    Bus.for_address sampleSpecTcp sampleEnv = (.ok sampleBusT, [.bindTcp "127.0.0.1" 4242]) ∧
    (∀ ev ∈ evsW, ev.isConn = true) ∧ evsW.length < USIZE ∧
    (Bus.run sampleBusT evsW).handoffs.map Handoff.id = List.range' 1 evsW.length :=
  ⟨by decide, by decide, by decide,
    c2_peer_ids_sequential sampleSpecTcp sampleEnv sampleBusT [.bindTcp "127.0.0.1" 4242]
      evsW (by decide) (by decide) (by decide)⟩

/-- Claim C3: an explicit GUID is adopted unchanged as session GUID and in the
resolved address; without one the generated GUID is adopted and written into
the canonical address, so the resolved address always carries the session GUID. -/
theorem c3_guid_resolution (spec : Address) (env : Env) (b : Bus) (acts : List NetAction)
    (h : Bus.for_address spec env = (.ok b, acts)) :
    (∀ g, spec.guid = some g → b.inner.guid = g ∧ b.inner.address.guid = some g) ∧
    (spec.guid = none → b.inner.guid = env.freshGuid ∧
      b.inner.address.guid = some env.freshGuid) ∧
    b.inner.address.guid = some b.inner.guid := by
  obtain ⟨-, -, hg, ha, -⟩ := for_address_ok_inv spec env b acts h
  refine ⟨?_, ?_, ha⟩
  · intro g hsg
    rw [hsg] at hg
    have hg2 : b.inner.guid = g := hg
    exact ⟨hg2, by rw [← hg2]; exact ha⟩
  · intro hsg
    rw [hsg] at hg
    have hg2 : b.inner.guid = env.freshGuid := hg
    exact ⟨hg2, by rw [← hg2]; exact ha⟩

/-- Witness for C3: the sample TCP spec carries GUID `abc`, which the resolved
bus adopts as session GUID and inside its address. -/
theorem c3_witness :
    Bus.for_address sampleSpecTcp sampleEnv = (.ok sampleBusT, [.bindTcp "127.0.0.1" 4242]) ∧
    sampleSpecTcp.guid = some "abc" ∧
    sampleBusT.inner.guid = "abc" ∧ sampleBusT.inner.address.guid = some "abc" :=
  ⟨by decide, rfl,
    ((c3_guid_resolution sampleSpecTcp sampleEnv sampleBusT [.bindTcp "127.0.0.1" 4242]
        (by decide)).1 "abc" rfl).1,
    ((c3_guid_resolution sampleSpecTcp sampleEnv sampleBusT [.bindTcp "127.0.0.1" 4242]
        (by decide)).1 "abc" rfl).2⟩

/-- Claim C4 is refuted by this evaluation: `unix_addr` does use the abstract
name verbatim, but the produced socket address has no pathname, so the
`as_pathname().expect(...)` in `for_address` is reached and the broker panics
instead of returning an error or a resolved address. -/
theorem c4_abstract_unix_panics :
    Bus.unix_addr (.abstract "busd0") sampleEnv.rand = .ok (.abstractName "busd0") ∧
    SocketAddr.as_pathname (.abstractName "busd0") = none ∧
    (Bus.for_address ⟨.unix (.abstract "busd0"), some "g"⟩ sampleEnv).1 =
      .error (.panicked "Address created for UNIX socket should always have a path.") :=
  ⟨rfl, rfl, rfl⟩

/-- Claim C8: the authentication mechanism is a pure function of the resolved
transport kind (unix implies External, TCP implies Anonymous, anything else is
rejected at resolution) and is never modified afterwards. -/
theorem c8_auth_mechanism_from_transport (spec : Address) (env : Env) (b : Bus)
    (acts : List NetAction) :
    (Bus.for_address spec env = (.ok b, acts) →
      (((∃ u, spec.transport = .unix u) ↔ b.auth_mechanism = .external) ∧
        ((∃ t, spec.transport = .tcp t) ↔ b.auth_mechanism = .anonymous))) ∧
    (∀ d, spec.transport = .other d →
      (Bus.for_address spec env).1 = .error (.err "Unsupported address.")) ∧
    (∀ ev, (b.accept_next ev).bus.auth_mechanism = b.auth_mechanism) ∧
    (∀ evs, (Bus.run b evs).bus.auth_mechanism = b.auth_mechanism) := by
  refine ⟨?_, ?_, ?_, ?_⟩
  · intro h
    have hinv := (for_address_ok_inv spec env b acts h).2.2.2.2
    cases htr : spec.transport with
    | unix u =>
      rw [htr] at hinv
      simp only at hinv
      simp [Bus.auth_mechanism, hinv]
    | tcp t =>
      rw [htr] at hinv
      simp only at hinv
      simp [Bus.auth_mechanism, hinv]
    | other d =>
      rw [htr] at hinv
      exact hinv.elim
  · intro d htr
    obtain ⟨tr, gopt⟩ := spec
    replace htr : tr = .other d := htr
    subst htr
    cases gopt <;> simp [Bus.for_address, Address.set_guid]
  · intro ev
    cases ev <;> simp [Bus.accept_next, Bus.accept, Bus.next_id, Bus.auth_mechanism]
  · intro evs
    have := (run_fields_const b evs).2.2.1
    simpa [Bus.auth_mechanism] using this

/-- Witness for C8: the sample TCP resolution yields the Anonymous mechanism. -/
theorem c8_witness :
    Bus.for_address sampleSpecTcp sampleEnv = (.ok sampleBusT, [.bindTcp "127.0.0.1" 4242]) ∧
    sampleBusT.auth_mechanism = .anonymous :=
  ⟨by decide,
    ((c8_auth_mechanism_from_transport sampleSpecTcp sampleEnv sampleBusT
        [.bindTcp "127.0.0.1" 4242]).1 (by decide)).2.mp ⟨sampleTcp, rfl⟩⟩

/-! Injectivity of the decimal representation used for the randomized socket
file names (`format` of the `fastrand` draw, i.e. `Nat.repr`). -/

/-- Numeric value of a decimal digit character. -/
def charVal (c : Char) : Nat := c.toNat - 48

/-- Decimal value of a digit string (a left inverse of `Nat.toDigits 10`). -/
def ofDigits (l : List Char) : Nat := l.foldl (fun a c => 10 * a + charVal c) 0

theorem charVal_digitChar : ∀ d : Nat, d < 10 → charVal (Nat.digitChar d) = d := by decide

theorem toDigitsCore_acc : ∀ (fuel n : Nat) (ds : List Char), n < fuel →
    Nat.toDigitsCore 10 fuel n ds = Nat.toDigitsCore 10 fuel n [] ++ ds := by
  intro fuel
  induction fuel with
  | zero => intro n ds h; exact absurd h (Nat.not_lt_zero n)
  | succ fuel ih =>
    intro n ds _
    simp only [Nat.toDigitsCore]
    by_cases h0 : n / 10 = 0
    · simp [h0]
    · simp only [h0, if_false]
      have hn : 0 < n := by
        rcases Nat.eq_zero_or_pos n with rfl | hp
        · simp at h0
        · exact hp
      have hlt : n / 10 < fuel := by
        have := Nat.div_lt_self hn (by norm_num : (1 : Nat) < 10)
        omega
      rw [ih (n / 10) (Nat.digitChar (n % 10) :: ds) hlt,
        ih (n / 10) [Nat.digitChar (n % 10)] hlt]
      simp

theorem ofDigits_append (l : List Char) (c : Char) :
    ofDigits (l ++ [c]) = 10 * ofDigits l + charVal c := by
  simp [ofDigits, List.foldl_append]

theorem ofDigits_toDigitsCore : ∀ (fuel n : Nat), n < fuel →
    ofDigits (Nat.toDigitsCore 10 fuel n []) = n := by
  intro fuel
  induction fuel with
  | zero => intro n h; exact absurd h (Nat.not_lt_zero n)
  | succ fuel ih =>
    intro n h
    simp only [Nat.toDigitsCore]
    by_cases h0 : n / 10 = 0
    · have hn : n < 10 := by omega
      have hmod : n % 10 = n := Nat.mod_eq_of_lt hn
      simp [h0, ofDigits, hmod, charVal_digitChar n hn]
    · simp only [h0, if_false]
      have hn : 0 < n := by
        rcases Nat.eq_zero_or_pos n with rfl | hp
        · simp at h0
        · exact hp
      have hlt : n / 10 < fuel := by
        have := Nat.div_lt_self hn (by norm_num : (1 : Nat) < 10)
        omega
      rw [toDigitsCore_acc fuel (n / 10) [Nat.digitChar (n % 10)] hlt,
        ofDigits_append, ih (n / 10) hlt,
        charVal_digitChar (n % 10) (Nat.mod_lt n (by norm_num))]
      omega

theorem repr_inj (m n : Nat) (h : Nat.repr m = Nat.repr n) : m = n := by
  have hdata : Nat.toDigits 10 m = Nat.toDigits 10 n := by
    have hd := congrArg String.data h
    simpa [Nat.repr, List.asString] using hd
  have hm := ofDigits_toDigitsCore (m + 1) m (Nat.lt_succ_self m)
  have hn := ofDigits_toDigitsCore (n + 1) n (Nat.lt_succ_self n)
  rw [show Nat.toDigitsCore 10 (m + 1) m [] = Nat.toDigits 10 m from rfl] at hm
  rw [show Nat.toDigitsCore 10 (n + 1) n [] = Nat.toDigits 10 n from rfl] at hn
  rw [← hm, ← hn, hdata]

theorem string_append_left_cancel (s t u : String) (h : s ++ t = s ++ u) : t = u := by
  obtain ⟨a⟩ := s
  obtain ⟨b⟩ := t
  obtain ⟨c⟩ := u
  have hd : a ++ b = a ++ c := congrArg String.data h
  exact congrArg List.asString (List.append_cancel_left hd)

/-- Distinct random draws give distinct synthesized socket file names. -/
theorem dbusPath_inj (d : String) (r1 r2 : Nat) (h12 : r1 ≠ r2) :
    d ++ "/dbus-" ++ Nat.repr r1 ≠ d ++ "/dbus-" ++ Nat.repr r2 := by
  intro h
  exact h12 (repr_inj r1 r2 (string_append_left_cancel (d ++ "/dbus-") _ _ h))

/-- Claim C5: a directory or temp-directory hint resolves to the synthesized
file `<dir>/dbus-<digits>` named by the random draw, the canonical address is
rewritten to exactly that unix path with the session GUID attached, the
listener is bound to that same path, and distinct draws give distinct paths. -/
theorem c5_dir_hint_resolution (d : String) (u : UnixSocket) (gopt : Option Guid)
    (env : Env) (b : Bus) (acts : List NetAction)
    (hu : u = UnixSocket.dir d ∨ u = UnixSocket.tmpDir d)
    (h : Bus.for_address ⟨.unix u, gopt⟩ env = (.ok b, acts)) :
    b.inner.address =
      ⟨.unix (.file (d ++ "/dbus-" ++ Nat.repr env.rand)), some b.inner.guid⟩ ∧
    b.listener = .unix (.pathname (d ++ "/dbus-" ++ Nat.repr env.rand)) ∧
    (∀ r1 r2 : Nat, r1 ≠ r2 →
      d ++ "/dbus-" ++ Nat.repr r1 ≠ d ++ "/dbus-" ++ Nat.repr r2) := by
  refine ⟨?_, ?_, fun r1 r2 h12 => dbusPath_inj d r1 r2 h12⟩ <;>
  · obtain ⟨fg, r, ub, tb, bs⟩ := env
    rcases hu with hu | hu <;> subst hu <;> cases gopt <;> cases ub <;> cases bs <;>
      simp_all [Bus.for_address, Bus.unix_addr, SocketAddr.as_pathname, Bus.unix_stream,
        Address.set_guid, Prod.ext_iff] <;>
      obtain ⟨hb, -⟩ := h <;> subst hb <;> simp

/-- Witness for C5: `unix:dir=/tmp/testbus` with no GUID resolves to the
concrete path `/tmp/testbus/dbus-1234567` with the generated GUID attached. -/
theorem c5_witness :
    Bus.for_address ⟨.unix (.dir "/tmp/testbus"), none⟩ sampleEnv =
      (.ok sampleBusDir, [.bindUnix (.pathname "/tmp/testbus/dbus-1234567")]) ∧
    sampleBusDir.inner.address =
      ⟨.unix (.file ("/tmp/testbus" ++ "/dbus-" ++ Nat.repr sampleEnv.rand)),
        some sampleBusDir.inner.guid⟩ ∧
    ("/tmp/testbus" ++ "/dbus-" ++ Nat.repr 1000000 ≠
      "/tmp/testbus" ++ "/dbus-" ++ Nat.repr 1000001) :=
  ⟨by decide,
    (c5_dir_hint_resolution "/tmp/testbus" (.dir "/tmp/testbus") none sampleEnv sampleBusDir
      [.bindUnix (.pathname "/tmp/testbus/dbus-1234567")] (Or.inl rfl) (by decide)).1,
    (c5_dir_hint_resolution "/tmp/testbus" (.dir "/tmp/testbus") none sampleEnv sampleBusDir
      [.bindUnix (.pathname "/tmp/testbus/dbus-1234567")] (Or.inl rfl) (by decide)).2.2
      1000000 1000001 (by decide)⟩

end Busd
